import Mathlib

/-!
Verification development for the myCloudGameSave repository.

Shallow embedding of the core components (sync engine, conflict resolver,
binary shortcuts decoder, save-location detector) of the Python source,
together with theorems settling the spec claims.

Modelling conventions:
* Python float timestamps are modelled as rationals (`Rat`); only order and
  the fixed offsets of the source matter to any claim.
* A flat directory (the engine is non-recursive) is an association list from
  filename to file data; a full filesystem for the conflict resolver is an
  association list from segment-list paths to file data.
* Python exceptions are modelled with `Except`/`Option`; an exception caught
  by the source is folded into the successor state exactly where the source
  catches it.
* I/O failures the source catches (a failing `shutil` copy, a failing
  `write_bytes`) are driven by explicit failure oracles, so theorems can
  quantify over every failure pattern.
-/

namespace GS

/-! ## Basic helpers shared by several components -/

/-- Lowercase of an ASCII character, as Python `str.lower` acts on ASCII. -/
def pyLowerChar (c : Char) : Char := c.toLower

/-- Python `str.lower`, restricted to the ASCII range used by the source. -/
def pyLower (s : String) : String := String.mk (s.toList.map pyLowerChar)

/-- Helper: does list `n` occur at the head of `h`. -/
def headMatch : List Char → List Char → Bool
  | [], _ => true
  | _ :: _, [] => false
  | a :: as, b :: bs => a = b && headMatch as bs

/-- Helper: does list `n` occur contiguously anywhere inside `h`
(Python `n in h` on strings). -/
def infixMatch (n : List Char) : List Char → Bool
  | [] => n.isEmpty
  | c :: rest => headMatch n (c :: rest) || infixMatch n rest

/-- Python substring test `needle in haystack`. -/
def pyIn (needle haystack : String) : Bool :=
  infixMatch needle.toList haystack.toList

/-- Python `str.endswith`. -/
def pyEndsWith (s suffixStr : String) : Bool :=
  headMatch suffixStr.toList.reverse s.toList.reverse

/-- Lexicographic comparison of char lists by code point, Python `<` on str. -/
def charListLt : List Char → List Char → Bool
  | [], [] => false
  | [], _ :: _ => true
  | _ :: _, [] => false
  | a :: as, b :: bs =>
    if a.toNat < b.toNat then true
    else if b.toNat < a.toNat then false
    else charListLt as bs

/-- Python string `<`. -/
def pyStrLt (a b : String) : Bool := charListLt a.toList b.toList

/-- Stable insertion into an ascending list (used to model Python `sorted`). -/
def sortedInsertStr (x : String) : List String → List String
  | [] => [x]
  | y :: ys => if pyStrLt x y then x :: y :: ys else y :: sortedInsertStr x ys

/-- Python `sorted` on a list of strings (stable, ascending). -/
def pySortedStr (l : List String) : List String :=
  l.foldr sortedInsertStr []

/-! ## Sync engine: data model (src/sync_engine.py) -/

/-- Action enum of `sync_engine.SyncAction`. -/
inductive SyncAction where
  | copyToCloud
  | copyToLocal
  | conflict
  | skip
deriving DecidableEq, Repr

/-- File metadata tracked by the engine: modification time and content.
Sizes are not modelled; no claim mentions them. -/
structure FData where
  mtime : Rat
  content : Nat
deriving DecidableEq, Repr

/-- One top-level directory: an association list from filename to file data
(`SyncEngine` is non-recursive and only handles top-level files). -/
abbrev Dir := List (String × FData)

/-- First-match lookup in a directory. -/
def dirLookup (d : Dir) (n : String) : Option FData :=
  match d with
  | [] => none
  | (m, f) :: rest => if m = n then some f else dirLookup rest n

/-- Write (create or overwrite) a file in a directory. -/
def dirSet (d : Dir) (n : String) (f : FData) : Dir :=
  match d with
  | [] => [(n, f)]
  | (m, g) :: rest => if m = n then (m, f) :: rest else (m, g) :: dirSet rest n f

/-- Filenames listed by `SyncEngine._get_files` (a Python set of names). -/
def dirNames (d : Dir) : List String := (d.map Prod.fst).dedup

/-- Embedding of `sync_engine.FileComparison`: filename, per-side existence
and per-side mtime (absent when the side does not exist). -/
structure FileCmp where
  filename : String
  localEx : Bool
  cloudEx : Bool
  localMtime : Option Rat
  cloudMtime : Option Rat
deriving DecidableEq, Repr

/-- Construction of a `FileComparison` from the two directories. -/
def mkFileCmp (localD cloudD : Dir) (n : String) : FileCmp :=
  { filename := n
    localEx := (dirLookup localD n).isSome
    cloudEx := (dirLookup cloudD n).isSome
    localMtime := (dirLookup localD n).map FData.mtime
    cloudMtime := (dirLookup cloudD n).map FData.mtime }

/-- Embedding of `SyncEngine._determine_action`. The source compares each
mtime directly with `last_sync_time` (no slack is added), and the
`if last_sync_time:` truthiness test makes a parsed timestamp of exactly 0
behave like an absent one. The catch-all `skip` mirrors the final
`return SyncAction.SKIP`; it is unreachable for comparisons built by
`mkFileCmp`, whose mtimes are present exactly when the side exists. -/
def determineAction (c : FileCmp) (lastSyncTime : Option Rat) : SyncAction :=
  if c.localEx && !c.cloudEx then .copyToCloud
  else if c.cloudEx && !c.localEx then .copyToLocal
  else if c.localEx && c.cloudEx then
    match c.localMtime, c.cloudMtime with
    | some lm, some cm =>
      match lastSyncTime with
      | some t =>
        if t ≠ 0 then
          if t < lm ∧ t < cm then .conflict
          else if t < lm ∧ ¬ t < cm then .copyToCloud
          else if t < cm ∧ ¬ t < lm then .copyToLocal
          else .skip
        else
          if cm < lm then .copyToCloud
          else if lm < cm then .copyToLocal
          else .skip
      | none =>
        if cm < lm then .copyToCloud
        else if lm < cm then .copyToLocal
        else .skip
    | _, _ => .skip
  else .skip

/-! ## Timestamp parsing (`datetime.fromisoformat(...).timestamp()`)

The source converts an optional ISO-8601 string into a POSIX timestamp.
The embedding parses `YYYY-MM-DD` with an optional one-character separator
followed by `HH:MM:SS` (the common shapes accepted by
`datetime.fromisoformat` before Python 3.11), validates the calendar
fields, and converts with the standard civil-from-days formula. Timezone
handling is abstracted: the value is the UTC epoch second count. -/

/-- Numeric value of an ASCII digit. -/
def digitVal (c : Char) : Option Nat :=
  if c.isDigit then some (c.toNat - 48) else none

/-- Two-digit field. -/
def twoDigits (a b : Char) : Option Nat := do
  let x ← digitVal a
  let y ← digitVal b
  pure (10 * x + y)

/-- Four-digit field. -/
def fourDigits (a b c d : Char) : Option Nat := do
  let x ← twoDigits a b
  let y ← twoDigits c d
  pure (100 * x + y)

/-- Gregorian leap-year test. -/
def isLeap (y : Nat) : Bool := y % 4 = 0 && (y % 100 ≠ 0 || y % 400 = 0)

/-- Days in a month, as `datetime` validates the day field. -/
def daysInMonth (y m : Nat) : Nat :=
  if m = 2 then (if isLeap y then 29 else 28)
  else if m = 4 ∨ m = 6 ∨ m = 9 ∨ m = 11 then 30
  else 31

/-- Days from 1970-01-01 to year `y`, month `m`, day `d` (civil-from-days). -/
def daysFromCivil (y m d : Nat) : Int :=
  let yAdj : Nat := if m ≤ 2 then y - 1 else y
  let era : Nat := yAdj / 400
  let yoe : Nat := yAdj - era * 400
  let doy : Nat := (153 * (if m > 2 then m - 3 else m + 9) + 2) / 5 + d - 1
  let doe : Nat := yoe * 365 + yoe / 4 - yoe / 100 + doy
  (era : Int) * 146097 + (doe : Int) - 719468

/-- Validated date/time to POSIX seconds. -/
def civilToPosix (y m d hh mm ss : Nat) : Option Int :=
  if 1 ≤ y ∧ y ≤ 9999 ∧ 1 ≤ m ∧ m ≤ 12 ∧ 1 ≤ d ∧ d ≤ daysInMonth y m ∧
      hh ≤ 23 ∧ mm ≤ 59 ∧ ss ≤ 59 then
    some (daysFromCivil y m d * 86400 + ((hh * 3600 + mm * 60 + ss : Nat) : Int))
  else none

/-- Embedding of `datetime.fromisoformat(s).timestamp()`: `none` means the
string is not valid ISO-8601 and the Python call raises `ValueError`. -/
def fromisoformat (s : String) : Option Int :=
  match s.toList with
  | [y1, y2, y3, y4, '-', m1, m2, '-', d1, d2] => do
    let y ← fourDigits y1 y2 y3 y4
    let m ← twoDigits m1 m2
    let d ← twoDigits d1 d2
    civilToPosix y m d 0 0 0
  | [y1, y2, y3, y4, '-', m1, m2, '-', d1, d2, _sep,
     h1, h2, ':', n1, n2, ':', s1, s2] => do
    let y ← fourDigits y1 y2 y3 y4
    let m ← twoDigits m1 m2
    let d ← twoDigits d1 d2
    let hh ← twoDigits h1 h2
    let mm ← twoDigits n1 n2
    let ss ← twoDigits s1 s2
    civilToPosix y m d hh mm ss
  | _ => none

/-- Conversion of the optional `last_sync` string in
`SyncEngine.compare_directories`: the `if last_sync:` truthiness test skips
the empty string, and the bare `except: pass` turns a parse failure into an
absent timestamp. -/
def pyLastSyncTime (lastSync : Option String) : Option Rat :=
  match lastSync with
  | none => none
  | some s =>
    if s = "" then none
    else match fromisoformat s with
      | some t => some (t : Rat)
      | none => none

/-! ## Sync engine: comparison and synchronization -/

/-- Embedding of `SyncEngine.compare_directories`: the union of the two
name sets, sorted ascending. The action the source stores on each
comparison is `cmpAction` below; the returned snapshots themselves do not
depend on `last_sync`. -/
def compareDirectories (localD cloudD : Dir) (_lastSync : Option String) :
    List FileCmp :=
  (pySortedStr ((dirNames localD ++ dirNames cloudD).dedup)).map
    (fun n => mkFileCmp localD cloudD n)

/-- Action classification attached to each comparison (the loop body sets
`comparison.action = self._determine_action(...)`). -/
def cmpAction (lastSync : Option String) (c : FileCmp) : SyncAction :=
  determineAction c (pyLastSyncTime lastSync)

/-- Embedding of `SyncEngine.copy_file`: on success the destination holds a
copy of the source bytes with the source mtime (`shutil.copy2`); every
exception is caught and reported as `false` with the destination unchanged.
The permission mirroring is swallowed by the source and not modelled.
`fails` injects the I/O failures the source catches. -/
def copyFile (srcD : Dir) (srcN : String) (dstD : Dir) (dstN : String)
    (fails : Bool) : Bool × Dir :=
  if fails then (false, dstD)
  else match dirLookup srcD srcN with
    | some f => (true, dirSet dstD dstN f)
    | none => (false, dstD)

/-- Embedding of `SyncEngine.create_backup`: copy the file into the backup
directory under `<name>.<timestamp>.<label>.backup`. The source swallows
its own failures and `sync_files` ignores the returned path, so the success
path is the only one modelled. -/
def createBackup (f : FData) (backupD : Dir) (n label ts : String) : Dir :=
  dirSet backupD (n ++ "." ++ ts ++ "." ++ label ++ ".backup") f

/-- Per-file record appended to `results["actions"]`. -/
structure ActionRec where
  filename : String
  action : SyncAction
  ok : Bool
  dryRun : Bool
  needsResolution : Bool
deriving DecidableEq, Repr

/-- Aggregate result of `SyncEngine.sync_files`. -/
structure SyncRes where
  success : Bool
  filesSynced : Nat
  filesSkipped : Nat
  conflicts : Nat
  errors : List String
  actions : List ActionRec
deriving DecidableEq, Repr

/-- Outcome of processing one comparison in the `sync_files` loop. -/
structure StepOut where
  rec1 : ActionRec
  synced : Nat
  skipped : Nat
  confl : Nat
  errs : List String
  localD : Dir
  cloudD : Dir
  backupD : Dir

/-- One iteration of the `sync_files` loop. The modelled failure modes (a
failing copy) are all caught inside `copy_file`, so the `except` branch of
the source that would clear `results["success"]` is never reached. -/
def syncStep (dryRun : Bool) (ts : String) (failCopy : String → Bool)
    (c : FileCmp) (act : SyncAction) (lD cD bD : Dir) : StepOut :=
  match act with
  | .copyToCloud =>
    if dryRun then
      ⟨⟨c.filename, act, true, true, false⟩, 0, 0, 0, [], lD, cD, bD⟩
    else
      let bD1 := match dirLookup cD c.filename with
        | some g => createBackup g bD c.filename "cloud" ts
        | none => bD
      let r := copyFile lD c.filename cD c.filename (failCopy c.filename)
      if r.1 then
        ⟨⟨c.filename, act, true, false, false⟩, 1, 0, 0, [], lD, r.2, bD1⟩
      else
        ⟨⟨c.filename, act, false, false, false⟩, 0, 0, 0,
          ["Failed to copy " ++ c.filename ++ " to cloud"], lD, r.2, bD1⟩
  | .copyToLocal =>
    if dryRun then
      ⟨⟨c.filename, act, true, true, false⟩, 0, 0, 0, [], lD, cD, bD⟩
    else
      let bD1 := match dirLookup lD c.filename with
        | some g => createBackup g bD c.filename "local" ts
        | none => bD
      let r := copyFile cD c.filename lD c.filename (failCopy c.filename)
      if r.1 then
        ⟨⟨c.filename, act, true, false, false⟩, 1, 0, 0, [], r.2, cD, bD1⟩
      else
        ⟨⟨c.filename, act, false, false, false⟩, 0, 0, 0,
          ["Failed to copy " ++ c.filename ++ " to local"], r.2, cD, bD1⟩
  | .conflict =>
    ⟨⟨c.filename, act, false, false, true⟩, 0, 0, 1, [], lD, cD, bD⟩
  | .skip =>
    ⟨⟨c.filename, act, true, false, false⟩, 0, 1, 0, [], lD, cD, bD⟩

/-- Loop of `sync_files` over the precomputed comparisons. -/
def syncGo (dryRun : Bool) (ts : String) (failCopy : String → Bool)
    (lastSyncTime : Option Rat) :
    List FileCmp → Dir → Dir → Dir → SyncRes × Dir × Dir × Dir
  | [], lD, cD, bD => (⟨true, 0, 0, 0, [], []⟩, lD, cD, bD)
  | c :: rest, lD, cD, bD =>
    let s := syncStep dryRun ts failCopy c (determineAction c lastSyncTime) lD cD bD
    let r := syncGo dryRun ts failCopy lastSyncTime rest s.localD s.cloudD s.backupD
    (⟨r.1.success, s.synced + r.1.filesSynced, s.skipped + r.1.filesSkipped,
      s.confl + r.1.conflicts, s.errs ++ r.1.errors, s.rec1 :: r.1.actions⟩,
      r.2)

/-- Embedding of `SyncEngine.sync_files`. `ts` is the timestamp string used
for backup names and `failCopy` drives the caught copy failures. Returns
the result dictionary and the final local, cloud and backup directories. -/
def syncFiles (localD cloudD backupD : Dir) (lastSync : Option String)
    (dryRun : Bool) (ts : String) (failCopy : String → Bool) :
    SyncRes × Dir × Dir × Dir :=
  syncGo dryRun ts failCopy (pyLastSyncTime lastSync)
    (compareDirectories localD cloudD lastSync) localD cloudD backupD

/-! ## Directional sync primitives (`sync_to_cloud` / `sync_from_cloud`) -/

/-- Result dictionary of a directional sync run. -/
structure DirSyncRes where
  copied : List String
  skipped : List (String × String)
  errors : List String
deriving DecidableEq, Repr

/-- Modelled from the spec: the bodies of `SyncEngine.sync_to_cloud` and
`SyncEngine.sync_from_cloud` are missing from src/ (only
`tests/test_sync.py` calls them), so the per-file decision follows the
spec: copy only if the source is strictly newer than the destination or
the destination is absent, otherwise skip with the stated reason, and
`force` bypasses the check entirely. Returns `none` to copy or the skip
reason. `newerReason` is `"cloud is newer"` for `sync_to_cloud` and
`"local is newer"` for `sync_from_cloud`. -/
def pushDecision (force : Bool) (newerReason : String) (srcM : Rat)
    (dstM : Option Rat) : Option String :=
  if force then none
  else match dstM with
    | none => none
    | some dm =>
      if dm < srcM then none
      else if srcM < dm then some newerReason
      else some "files are equal"

/-- Modelled from the spec: the shared one-way push loop. Walks the source
listing; each file is copied (bytes and mtime) or recorded as skipped with
its reason. -/
def pushDirGo (force : Bool) (newerReason : String) :
    List (String × FData) → Dir → DirSyncRes × Dir
  | [], dstD => (⟨[], [], []⟩, dstD)
  | (n, f) :: rest, dstD =>
    match pushDecision force newerReason f.mtime
        ((dirLookup dstD n).map FData.mtime) with
    | none =>
      let r := pushDirGo force newerReason rest (dirSet dstD n f)
      (⟨n :: r.1.copied, r.1.skipped, r.1.errors⟩, r.2)
    | some reason =>
      let r := pushDirGo force newerReason rest dstD
      (⟨r.1.copied, (n, reason) :: r.1.skipped, r.1.errors⟩, r.2)

/-- Modelled from the spec: `SyncEngine.sync_to_cloud`. -/
def syncToCloud (localD cloudD : Dir) (force : Bool) : DirSyncRes × Dir :=
  pushDirGo force "cloud is newer" localD cloudD

/-- Modelled from the spec: `SyncEngine.sync_from_cloud`. -/
def syncFromCloud (localD cloudD : Dir) (force : Bool) : DirSyncRes × Dir :=
  pushDirGo force "local is newer" cloudD localD

/-! ## Conflict resolver (src/conflict_resolver.py)

The resolver works on arbitrary paths, modelled as segment lists over an
association-list filesystem. Its effects are deep-embedded as an operation
trace so the backup-before-overwrite ordering can be stated for every
failure pattern. -/

/-- Filesystem path as a list of segments. -/
abbrev FPath := List String

/-- Whole-filesystem snapshot for the resolver. -/
abbrev RFs := List (FPath × FData)

/-- First-match lookup. -/
def fsLookup (fs : RFs) (p : FPath) : Option FData :=
  match fs with
  | [] => none
  | (q, f) :: rest => if q = p then some f else fsLookup rest p

/-- Create or overwrite a file. -/
def fsSet (fs : RFs) (p : FPath) (f : FData) : RFs :=
  match fs with
  | [] => [(p, f)]
  | (q, g) :: rest => if q = p then (q, f) :: rest else (q, g) :: fsSet rest p f

/-- Remove a file. -/
def fsRemove (fs : RFs) (p : FPath) : RFs :=
  match fs with
  | [] => []
  | (q, g) :: rest => if q = p then rest else (q, g) :: fsRemove rest p

/-- Last path segment, Python `Path.name`. -/
def pathName (p : FPath) : String := p.getLast?.getD ""

/-- Position of the last dot that yields a non-empty stem and suffix, as
`pathlib` computes `stem`/`suffix` (`0 < i < len(name) - 1`). -/
def lastDotPos (cs : List Char) : Option Nat :=
  (List.range cs.length).foldl
    (fun acc i =>
      if cs.getD i ' ' = '.' ∧ 0 < i ∧ i < cs.length - 1 then some i else acc)
    none

/-- Python `Path.stem`. -/
def pathStem (p : FPath) : String :=
  let cs := (pathName p).toList
  match lastDotPos cs with
  | some i => String.mk (cs.take i)
  | none => String.mk cs

/-- Python `Path.suffix`. -/
def pathSuffix (p : FPath) : String :=
  let cs := (pathName p).toList
  match lastDotPos cs with
  | some i => String.mk (cs.drop i)
  | none => ""

/-- Resolution strategies of `conflict_resolver.ResolutionStrategy`. -/
inductive Strategy where
  | keepLocal
  | keepCloud
  | keepBoth
  | manual
deriving DecidableEq, Repr

/-- Filesystem effect primitives emitted by `resolve_conflict`. -/
inductive FsOp where
  | mkdirp (p : FPath)
  | copyBytes (src dst : FPath)
  | touch (p : FPath)
  | rename (src dst : FPath)
deriving DecidableEq, Repr

/-- Backup path written by `create_conflict_backup` for one side:
`backup_dir / f"{filename}.{timestamp}.{side}.conflict"` where `filename`
is the name of the local path. -/
def conflictBackupPath (backupDir : FPath) (localP : FPath)
    (ts side : String) : FPath :=
  backupDir ++ [pathName localP ++ "." ++ ts ++ "." ++ side ++ ".conflict"]

/-- Renamed path produced by the `KEEP_BOTH` branch:
`parent / f"{stem}.{timestamp}.{side}{suffix}"`. -/
def keepBothPath (p : FPath) (ts side : String) : FPath :=
  p.dropLast ++ [pathStem p ++ "." ++ ts ++ "." ++ side ++ pathSuffix p]

/-- Operation trace of `create_conflict_backup`: make the backup directory,
then copy each side that exists. The existence tests run before any
mutation, so they read the entry state. -/
def conflictBackupOps (fs : RFs) (localP cloudP backupDir : FPath)
    (ts : String) : List FsOp :=
  [.mkdirp backupDir]
    ++ (if (fsLookup fs localP).isSome then
          [.copyBytes localP (conflictBackupPath backupDir localP ts "local")]
        else [])
    ++ (if (fsLookup fs cloudP).isSome then
          [.copyBytes cloudP (conflictBackupPath backupDir localP ts "cloud")]
        else [])

/-- Operation trace of the strategy branch of `resolve_conflict`. -/
def strategyOps (localP cloudP : FPath) (ts : String) : Strategy → List FsOp
  | .keepLocal => [.copyBytes localP cloudP, .touch cloudP]
  | .keepCloud => [.copyBytes cloudP localP, .touch localP]
  | .keepBoth =>
    [.rename localP (keepBothPath localP ts "local"),
     .rename cloudP (keepBothPath cloudP ts "cloud")]
  | .manual => []

/-- Full operation trace of `resolve_conflict`: backups first,
unconditionally, then the chosen strategy. -/
def resolveConflictOps (fs : RFs) (localP cloudP : FPath) (strat : Strategy)
    (backupDir : FPath) (ts : String) : List FsOp :=
  conflictBackupOps fs localP cloudP backupDir ts
    ++ strategyOps localP cloudP ts strat

/-- Return value of `resolve_conflict` (the `MANUAL` branch falls through
to `return False`). -/
def resolveConflictRet (strat : Strategy) : Bool := strat ≠ .manual

/-- Effect of one operation; `none` models an exception raised by the
operation itself (reading a missing source). `now` is the wall-clock time
stamped onto written or touched files. -/
def applyOp (now : Rat) (fs : RFs) : FsOp → Option RFs
  | .mkdirp _ => some fs
  | .copyBytes s d =>
    match fsLookup fs s with
    | none => none
    | some f => some (fsSet fs d ⟨now, f.content⟩)
  | .touch p =>
    match fsLookup fs p with
    | some f => some (fsSet fs p ⟨now, f.content⟩)
    | none => some (fsSet fs p ⟨now, 0⟩)
  | .rename s d =>
    match fsLookup fs s with
    | none => none
    | some f => some (fsSet (fsRemove fs s) d f)

/-- Execute a trace under a failure oracle. Python propagates the first
exception out of `resolve_conflict`, so execution stops at the first
failing operation. Returns the final filesystem and the list of operations
that completed. -/
def execOps (oracle : FsOp → Bool) (now : Rat) :
    RFs → List FsOp → RFs × List FsOp
  | fs, [] => (fs, [])
  | fs, op :: rest =>
    if oracle op then (fs, [])
    else match applyOp now fs op with
      | none => (fs, [])
      | some fs2 =>
        let r := execOps oracle now fs2 rest
        (r.1, op :: r.2)

/-- Embedding of `ConflictResolver.detect_conflict`. With both files
present: no usable `last_sync` (absent or empty, by truthiness) compares
mtimes with a 2-second tolerance; otherwise the string is parsed with no
exception handler, so an invalid string raises `ValueError`; a parsed
timestamp declares a conflict when both sides exceed `last_sync + 1`. -/
def detectConflict (fs : RFs) (localP cloudP : FPath)
    (lastSync : Option String) : Except String Bool :=
  match fsLookup fs localP, fsLookup fs cloudP with
  | some fl, some fc =>
    match lastSync with
    | none => .ok (decide (2 < |fl.mtime - fc.mtime|))
    | some s =>
      if s = "" then .ok (decide (2 < |fl.mtime - fc.mtime|))
      else match fromisoformat s with
        | none => .error "ValueError: invalid isoformat string"
        | some t =>
          .ok (decide ((t : Rat) + 1 < fl.mtime) && decide ((t : Rat) + 1 < fc.mtime))
  | _, _ => .ok false

/-! ## Binary shortcuts decoder (src/vdf_parser.py) -/

/-- Parsed value of the binary container: nested map, string, or uint32. -/
inductive VDFValue where
  | vstr (s : String)
  | vint (n : Nat)
  | vsect (entries : List (String × VDFValue))

/-- Structural equality test for `VDFValue` (the derive handler does not
cope with the nested list, so it is written out). -/
def VDFValue.beq : VDFValue → VDFValue → Bool
  | .vstr a, .vstr b => a = b
  | .vint a, .vint b => a = b
  | .vsect a, .vsect b => beqList a b
  | _, _ => false
where
  beqList : List (String × VDFValue) → List (String × VDFValue) → Bool
  | [], [] => true
  | (k1, v1) :: r1, (k2, v2) :: r2 => k1 = k2 && beq v1 v2 && beqList r1 r2
  | _, _ => false

instance : BEq VDFValue := ⟨VDFValue.beq⟩

/-- Container dictionary in insertion order (Python `dict`). -/
abbrev VDFDict := List (String × VDFValue)

/-- First-match lookup, agreeing with Python `dict.get` on the dictionaries
built below (keys are unique after `pyDictCons`). -/
def vdfLookup (d : VDFDict) (k : String) : Option VDFValue :=
  match d with
  | [] => none
  | (k2, v) :: rest => if k2 = k then some v else vdfLookup rest k

/-- Remove the entry for a key. -/
def vdfErase (d : VDFDict) (k : String) : VDFDict :=
  match d with
  | [] => []
  | (k2, v) :: rest => if k2 = k then rest else (k2, v) :: vdfErase rest k

/-- Prepend an assignment made before the assignments already in `d`,
with Python `dict` semantics: the first assignment fixes the position, the
last assignment fixes the value. -/
def pyDictCons (k : String) (v : VDFValue) (d : VDFDict) : VDFDict :=
  match vdfLookup d k with
  | some v2 => (k, v2) :: vdfErase d k
  | none => (k, v) :: d

/-- Decode a null-terminated byte run as `_read_cstring` does: take bytes
up to the terminator, decode as text (non-ASCII bytes are dropped,
approximating `errors="ignore"`), and consume the terminator. -/
def readCString (bs : List Nat) : String × List Nat :=
  let pre := bs.takeWhile (fun b => b ≠ 0)
  (String.mk (pre.filterMap
      (fun b => if b < 128 then some (Char.ofNat b) else none)),
    (bs.dropWhile (fun b => b ≠ 0)).drop 1)

/-- Decode a 4-byte little-endian unsigned integer as `_read_int32` does;
fewer than 4 remaining bytes makes `struct.unpack` raise. -/
def readInt32 (bs : List Nat) : Option (Nat × List Nat) :=
  match bs with
  | b0 :: b1 :: b2 :: b3 :: rest =>
    some (b0 + 256 * (b1 + 256 * (b2 + 256 * b3)), rest)
  | _ => none

/-- Embedding of `VDFParser._parse_section`. One fuel unit per loop entry;
each entry consumes at least the tag byte, so `length + 1` fuel is enough
for the top-level call. Tag 8 ends the section; tags 0/1/2 parse an entry
and continue; any other tag hits the `else: break` of the source: the
section ends silently with the entries parsed so far, the unknown tag
already consumed. -/
def parseSectionF : Nat → List Nat → Except String (VDFDict × List Nat)
  | 0, _ => .error "out of fuel"
  | _ + 1, [] => .ok ([], [])
  | fuel + 1, t :: rest =>
    if t = 8 then .ok ([], rest)
    else if t = 0 then
      let (key, r1) := readCString rest
      match parseSectionF fuel r1 with
      | .error e => .error e
      | .ok (sub, r2) =>
        match parseSectionF fuel r2 with
        | .error e => .error e
        | .ok (d, r3) => .ok (pyDictCons key (.vsect sub) d, r3)
    else if t = 1 then
      let (key, r1) := readCString rest
      let (v, r2) := readCString r1
      match parseSectionF fuel r2 with
      | .error e => .error e
      | .ok (d, r3) => .ok (pyDictCons key (.vstr v) d, r3)
    else if t = 2 then
      let (key, r1) := readCString rest
      match readInt32 r1 with
      | none => .error "struct.error: unpack requires a buffer of 4 bytes"
      | some (n, r2) =>
        match parseSectionF fuel r2 with
        | .error e => .error e
        | .ok (d, r3) => .ok (pyDictCons key (.vint n) d, r3)
    else .ok ([], rest)

/-- Embedding of `VDFParser.parse` on raw bytes. -/
def parseVDF (bs : List Nat) : Except String VDFDict :=
  match parseSectionF (bs.length + 1) bs with
  | .error e => .error e
  | .ok (d, _) => .ok d

/-- Extracted record of `ShortcutsParser._extract_game_info` (the
`raw_data` echo is not modelled). -/
structure ShortcutRec where
  name : VDFValue
  exe : VDFValue
  startDir : VDFValue
  appId : VDFValue

/-- Structural equality for `ShortcutRec`. -/
def ShortcutRec.beq (a b : ShortcutRec) : Bool :=
  a.name == b.name && a.exe == b.exe && a.startDir == b.startDir
    && a.appId == b.appId

instance : BEq ShortcutRec := ⟨ShortcutRec.beq⟩

/-- Python `dict.get` with a default. -/
def pyDictGet (d : VDFDict) (k : String) (dft : VDFValue) : VDFValue :=
  (vdfLookup d k).getD dft

/-- Python falsiness of a decoded value (`if not app_name:`). -/
def pyFalsy : VDFValue → Bool
  | .vstr s => s = ""
  | .vint n => n = 0
  | .vsect d => d.isEmpty

/-- Embedding of `ShortcutsParser._extract_game_info`. The source reads
`game_data.get('StartDir', game_data.get('StartDir', ''))`: the fallback
key is `StartDir` again, not the lowercase `startdir` the adjacent lines'
pattern calls for. -/
def extractGameInfo (gameData : VDFDict) : Option ShortcutRec :=
  let appName := pyDictGet gameData "AppName" (pyDictGet gameData "appname" (.vstr ""))
  let exe := pyDictGet gameData "Exe" (pyDictGet gameData "exe" (.vstr ""))
  let startDir := pyDictGet gameData "StartDir" (pyDictGet gameData "StartDir" (.vstr ""))
  let appId := pyDictGet gameData "appid" (.vint 0)
  if pyFalsy appName then none
  else some ⟨appName, exe, startDir, appId⟩

/-- Embedding of `ShortcutsParser.parse`: parse the container (wrapping a
parse failure in `ValueError`), take the `shortcuts` map (default empty),
skip entries whose value is not a map, and keep each extracted record.
`data.get("shortcuts", {})` producing a non-map makes the `.items()` call
raise, modelled as an error. -/
def shortcutsParse (bs : List Nat) : Except String (List ShortcutRec) :=
  match parseVDF bs with
  | .error e => .error ("ValueError: Failed to parse shortcuts.vdf: " ++ e)
  | .ok data =>
    match pyDictGet data "shortcuts" (.vsect []) with
    | .vsect entries =>
      .ok (entries.filterMap (fun kv =>
        match kv.2 with
        | .vsect gd => extractGameInfo gd
        | _ => none))
    | _ => .error "AttributeError: object has no attribute items"

/-- Byte run of an ASCII string, for writing concrete containers. -/
def strBytes (s : String) : List Nat := s.toList.map Char.toNat

/-! ## Save location detector (src/save_detector.py)

The filesystem is a named tree; paths are segment lists from the root.
The detector only reads, so no mutation is modelled. `iterdir` on a file
(which would raise `NotADirectoryError`) is modelled as an empty listing;
no claim exercises that corner. Environment expansion and the XDG
overrides are not modelled (the environment is taken as unset). -/

/-- Filesystem tree for the detector. -/
inductive FsTree where
  | file (name : String)
  | dir (name : String) (children : List FsTree)

/-- Name of a node. -/
def FsTree.nodeName : FsTree → String
  | .file n => n
  | .dir n _ => n

/-- First child with the given name. -/
def childNamed (cs : List FsTree) (n : String) : Option FsTree :=
  match cs with
  | [] => none
  | t :: rest => if t.nodeName = n then some t else childNamed rest n

/-- Node at a path below `t`. -/
def lookupPath (t : FsTree) : FPath → Option FsTree
  | [] => some t
  | n :: rest =>
    match t with
    | .file _ => none
    | .dir _ cs =>
      match childNamed cs n with
      | some c => lookupPath c rest
      | none => none

/-- Python `Path.exists`. -/
def pathExistsB (root : FsTree) (p : FPath) : Bool := (lookupPath root p).isSome

/-- Children of a directory path (empty for files and missing paths). -/
def childrenAt (root : FsTree) (p : FPath) : List FsTree :=
  match lookupPath root p with
  | some (.dir _ cs) => cs
  | _ => []

/-- Characters kept by the `re.sub(r"[^\w\s-]", "", name)` of
`_clean_game_name` (ASCII reading of `\w`/`\s`). -/
def keptChar (c : Char) : Bool :=
  c.isAlphanum || c = '_' || c.isWhitespace || c = '-'

/-- Words of a char list split on whitespace runs (Python `str.split()`). -/
def splitWsAux : List Char → List Char → List (List Char)
  | [], acc => if acc.isEmpty then [] else [acc.reverse]
  | c :: rest, acc =>
    if c.isWhitespace then
      if acc.isEmpty then splitWsAux rest []
      else acc.reverse :: splitWsAux rest []
    else splitWsAux rest (c :: acc)

/-- Python `str.split()` with no argument. -/
def pySplitWs (s : String) : List String :=
  (splitWsAux s.toList []).map String.mk

/-- Embedding of `SaveLocationDetector._clean_game_name`. -/
def cleanGameName (s : String) : String :=
  String.intercalate " " (pySplitWs (String.mk (s.toList.filter keptChar)))

/-- Python `str.replace` with single-character needle. -/
def replaceChar (s : String) (c : Char) (r : List Char) : String :=
  String.mk (s.toList.foldr (fun x acc => if x = c then r ++ acc else x :: acc) [])

/-- Directory names `search_recursive` skips. -/
def gameSysDirs : List String := ["Microsoft", "Temp", "temp", "Cache", "cache"]

/-- Directory names `search_for_saves` skips. -/
def saveSysDirs : List String := gameSysDirs ++ ["__pycache__"]

/-- Name-match test of `_find_game_subdirs`: a non-empty variation matches
as a substring in either direction, or a significant game word occurs in
the directory name. -/
def matchedName (vars words : List String) (nameL : String) : Bool :=
  vars.any (fun v => v ≠ "" && (pyIn v nameL || pyIn nameL v))
    || words.any (fun w => pyIn w nameL)

/-- Save-file extensions of `_find_save_subdirs`. -/
def saveExtensions : List String := [".sav", ".dat", ".save", ".bin", ".slot"]

/-- Save-file name keywords of `_find_save_subdirs`. -/
def saveKeywords : List String :=
  ["save", "saves", "savegame", "savegames", "savedata", "saved"]

/-- File-level save test of `search_for_saves`. -/
def isSaveFileName (n : String) : Bool :=
  saveExtensions.any (fun e => pyEndsWith (pyLower n) e)
    || saveKeywords.any (fun k => pyIn k (pyLower n))

/-- Save files directly inside a listing. -/
def countSaveFiles (cs : List FsTree) : Nat :=
  cs.foldl (fun acc t =>
    match t with
    | .file n => if isSaveFileName n then acc + 1 else acc
    | .dir _ _ => acc) 0

/-- Child loop of `search_for_saves`, abstracted over the recursive call
for one level deeper: nested results are inserted into the dictionary
during the iteration, before the parent entry. -/
def collectSaveKidsWith
    (deeper : FPath → List FsTree → List (FPath × Nat)) :
    FPath → List FsTree → List (FPath × Nat)
  | _, [] => []
  | p, .file _ :: rest => collectSaveKidsWith deeper p rest
  | p, .dir n cs :: rest =>
    (if n ∈ saveSysDirs then [] else deeper (p ++ [n]) cs)
      ++ collectSaveKidsWith deeper p rest

/-- One `search_for_saves` call on a directory with listing `cs`; fuel 0 is
the `depth > max_depth` guard. The parent's own entry is appended after the
loop when it directly holds save files. -/
def collectSaveAt : Nat → FPath → List FsTree → List (FPath × Nat)
  | 0, _, _ => []
  | f + 1, p, cs =>
    collectSaveKidsWith (collectSaveAt f) p cs
      ++ (if countSaveFiles cs ≠ 0 then [(p, countSaveFiles cs)] else [])

/-- Stable insertion for a descending sort by count (Python
`sorted(..., key=count, reverse=True)` is stable). -/
def insCountDesc (x : FPath × Nat) : List (FPath × Nat) → List (FPath × Nat)
  | [] => [x]
  | y :: ys => if x.2 ≥ y.2 then x :: y :: ys else y :: insCountDesc x ys

/-- Stable descending sort by count. -/
def sortCountDesc (l : List (FPath × Nat)) : List (FPath × Nat) :=
  l.foldr insCountDesc []

/-- Segment-list prefix test. -/
def segPre : List String → List String → Bool
  | [], _ => true
  | _ :: _, [] => false
  | a :: as, b :: bs => a = b && segPre as bs

/-- Proper-ancestor test on segment paths (`a in b.parents`). -/
def isAncestorPath (a b : FPath) : Bool := segPre a b && a ≠ b

/-- Shallowest-directory filter at the end of `_find_save_subdirs`. -/
def filterShallowest (l : List (FPath × Nat)) : List FPath :=
  l.foldl (fun result pc =>
    if result.any (fun q => isAncestorPath q pc.1) then result
    else result.filter (fun q => !isAncestorPath pc.1 q) ++ [pc.1]) []

/-- Embedding of `_find_save_subdirs` on a directory at `p` with listing
`cs` (fresh depth budget of 3 per call, hence fuel 4). -/
def findSaveSubdirs (p : FPath) (cs : List FsTree) : List FPath :=
  let found := collectSaveAt 4 p cs
  if found.isEmpty then [] else filterShallowest (sortCountDesc found)

/-- Child loop of `search_recursive`, abstracted over the recursive call
for one level deeper: files are skipped, system names are skipped, a
name-matched directory contributes its save subdirectories (or itself when
none are found), anything else is searched one level deeper. -/
def searchKidsWith (vars words : List String)
    (deeper : FPath → List FsTree → List FPath) :
    FPath → List FsTree → List FPath
  | _, [] => []
  | p, .file _ :: rest => searchKidsWith vars words deeper p rest
  | p, .dir n cs :: rest =>
    (if n ∈ gameSysDirs then []
     else if matchedName vars words (pyLower n) then
       let sds := findSaveSubdirs (p ++ [n]) cs
       if sds.isEmpty then [p ++ [n]] else sds
     else deeper (p ++ [n]) cs)
      ++ searchKidsWith vars words deeper p rest

/-- One `search_recursive` call (fuel 0 is the `depth > max_depth` guard;
the top-level call gets fuel 4 for depths 0 through 3). -/
def searchAt (vars words : List String) :
    Nat → FPath → List FsTree → List FPath
  | 0, _, _ => []
  | f + 1, p, cs => searchKidsWith vars words (searchAt vars words f) p cs

/-- Embedding of `SaveLocationDetector._find_game_subdirs` (default depth
3): builds the lowercase variations and significant words, then runs the
recursive search from the base directory. -/
def findGameSubdirs (root : FsTree) (basePath : FPath) (gameName : String) :
    List FPath :=
  match lookupPath root basePath with
  | some (.dir _ cs) =>
    let g := pyLower gameName
    let vars := [g, replaceChar g ' ' [], replaceChar g ' ' ['-'],
      replaceChar g (Char.ofNat 39) []]
    let words := (pySplitWs g).filter (fun w => w.length > 3)
    searchAt vars words 4 basePath cs
  | _ => []

/-- Game descriptor fed to the detector (`name`, `start_dir`, `app_id`
from the shortcut record; an absent or empty `start_dir` is `none`, and
`app_id` 0 covers the falsy cases of `if not app_id:`). -/
structure DetGame where
  name : String
  startDir : Option FPath
  appId : Nat

/-- Embedding of `check_game_directory`. -/
def checkGameDirectory (root : FsTree) (g : DetGame) : Option FPath :=
  match g.startDir with
  | some sd => if pathExistsB root sd then some sd else none
  | none => none

/-- Embedding of `check_proton_prefix`. The `"drive_c" in start_dir`
substring test followed by `parts.index("drive_c")` is modelled as the
first exact `drive_c` segment (the source's `ValueError` fallback covers
the mismatch case). -/
def checkProtonPrefix (root : FsTree) (osType : String) (g : DetGame)
    (steamPath : FPath) : Option FPath :=
  if osType ≠ "linux" then none
  else if g.appId = 0 then none
  else
    let compat := steamPath ++ ["steamapps", "compatdata", toString g.appId]
    let direct : Option FPath :=
      if pathExistsB root compat then
        let pfx := compat ++ ["pfx", "drive_c"]
        if pathExistsB root pfx then some pfx else none
      else none
    match direct with
    | some p => some p
    | none =>
      match g.startDir with
      | some sd =>
        let i := sd.indexOf "drive_c"
        if i < sd.length then
          let pfx := sd.take i ++ ["drive_c"]
          if pathExistsB root pfx then some pfx else none
        else none
      | none => none

/-- Embedding of `get_common_save_locations` (existence-filtered; the XDG
environment variables are taken as unset). -/
def commonSaveLocations (root : FsTree) (home : FPath) (osType : String) :
    List FPath :=
  (if osType = "linux" then
    [home ++ [".local", "share"], home ++ [".config"], home ++ ["Documents"],
     home ++ ["Documents", "My Games"]]
  else
    [home ++ ["Documents"], home ++ ["Documents", "My Games"],
     home ++ ["Saved Games"], home ++ ["AppData", "Roaming"],
     home ++ ["AppData", "Local"], home ++ ["AppData", "LocalLow"]]
  ).filter (pathExistsB root)

/-- Windows-profile locations probed inside a Proton prefix. -/
def protonLocations (pfx : FPath) : List FPath :=
  [pfx ++ ["users", "steamuser", "AppData", "Local"],
   pfx ++ ["users", "steamuser", "AppData", "Roaming"],
   pfx ++ ["users", "steamuser", "AppData", "LocalLow"],
   pfx ++ ["users", "steamuser", "Documents"],
   pfx ++ ["users", "steamuser", "Documents", "My Games"],
   pfx ++ ["users", "steamuser", "Saved Games"]]

/-- Literal save-directory names probed next to the game executable. -/
def installSaveNames : List String :=
  ["save", "saves", "savegame", "savegames", "SaveData", "Saves"]

/-- Final `list(set(candidates))` of `find_save_directories`. CPython's set
iteration order is arbitrary (string hashing is randomized per process);
the embedding keeps the first occurrence of each path, and only membership
in the result is meaningful. -/
def pySetList (l : List FPath) : List FPath := l.dedup

/-- Embedding of `SaveLocationDetector.find_save_directories`: Proton-
prefix tier (Linux only), install-directory tier, then the common OS
locations when nothing was found or the platform is not Linux, finally
deduplicated through a Python set. -/
def findSaveDirectories (root : FsTree) (home : FPath) (osType : String)
    (g : DetGame) (steamPath : FPath) : List FPath :=
  let cleanName := cleanGameName g.name
  let c1 : List FPath :=
    if osType = "linux" then
      match checkProtonPrefix root osType g steamPath with
      | some pfx =>
        (protonLocations pfx).foldl (fun acc loc =>
          if pathExistsB root loc then
            let gs := findGameSubdirs root loc cleanName
            if gs.isEmpty then acc else acc ++ gs
          else acc) []
      | none => []
    else []
  let c2 : List FPath :=
    match checkGameDirectory root g with
    | some gd => installSaveNames.filterMap (fun s =>
        if pathExistsB root (gd ++ [s]) then some (gd ++ [s]) else none)
    | none => []
  let c12 := c1 ++ c2
  let c3 : List FPath :=
    if c12.isEmpty || osType ≠ "linux" then
      (commonSaveLocations root home osType).foldl
        (fun acc b => acc ++ findGameSubdirs root b cleanName) []
    else []
  pySetList (c12 ++ c3)

/-! ## Claim C1: classification against the last-sync baseline -/

/-- Classification rule exactly as claim C1 words it: each side's mtime is
compared with `last_sync + 1` (a 1-second slack), `Conflict` when both
exceed it, `CopyTo` the side that alone exceeds it, `Skip` otherwise. -/
def slackClassify (lm cm T : Rat) : SyncAction :=
  if T + 1 < lm ∧ T + 1 < cm then .conflict
  else if T + 1 < lm then .copyToCloud
  else if T + 1 < cm then .copyToLocal
  else .skip

/-- Claim C1 is false as stated: at `last_sync = 100` with a local mtime of
101 and a cloud mtime of 50, the 1-second slack the claim describes yields
`Skip` (neither side exceeds 101), but `_determine_action`, which compares
against `last_sync` with no slack, yields `CopyToCloud`. -/
theorem determineAction_slack_counterexample :
    determineAction ⟨"save.dat", true, true, some 101, some 50⟩ (some 100)
        = SyncAction.copyToCloud
      ∧ slackClassify 101 50 100 = SyncAction.skip
      ∧ SyncAction.copyToCloud ≠ SyncAction.skip := by
  refine ⟨by decide, ?_, by decide⟩
  have h1 : ¬ ((100 : Rat) + 1 < 101) := by norm_num
  have h2 : ¬ ((100 : Rat) + 1 < 50) := by norm_num
  simp [slackClassify, h1, h2]

/-- Claim C1 (amended): for a file present on both sides and a parseable,
nonzero last-sync timestamp `T`, `_determine_action` classifies `Conflict`
exactly when both mtimes strictly exceed `T` itself, `CopyToCloud` when
only the local mtime exceeds `T`, `CopyToLocal` when only the cloud mtime
exceeds `T`, and `Skip` when neither does; no 1-second slack is applied
(the slack exists only in `ConflictResolver.detect_conflict`). -/
theorem determineAction_threshold (fn : String) (lm cm T : Rat)
    (hT : T ≠ 0) :
    (determineAction ⟨fn, true, true, some lm, some cm⟩ (some T)
        = SyncAction.conflict ↔ (T < lm ∧ T < cm))
      ∧ (determineAction ⟨fn, true, true, some lm, some cm⟩ (some T)
        = SyncAction.copyToCloud ↔ (T < lm ∧ ¬ T < cm))
      ∧ (determineAction ⟨fn, true, true, some lm, some cm⟩ (some T)
        = SyncAction.copyToLocal ↔ (T < cm ∧ ¬ T < lm))
      ∧ (determineAction ⟨fn, true, true, some lm, some cm⟩ (some T)
        = SyncAction.skip ↔ (¬ T < lm ∧ ¬ T < cm)) := by
  by_cases h1 : T < lm <;> by_cases h2 : T < cm <;>
    simp [determineAction, hT, h1, h2]

/-- Witness for the amended claim C1 at `T = 100`, `lm = 101`, `cm = 50`. -/
theorem determineAction_threshold_witness :
    determineAction ⟨"save.dat", true, true, some 101, some 50⟩ (some 100)
      = SyncAction.copyToCloud :=
  ((determineAction_threshold "save.dat" 101 50 100 (by decide)).2.1).mpr
    ⟨by decide, by decide⟩

/-! ## Claim C9: shortcut field extraction -/

/-- Shortcut entry written entirely with the lowercase key spellings,
including `startdir`. -/
def lowercaseEntry : VDFDict :=
  [("appname", .vstr "G"), ("exe", .vstr "e"),
   ("startdir", .vstr "/d"), ("appid", .vint 7)]

/-- Claim C9: the `AppName`/`appname` and `Exe`/`exe` fallbacks work, but
the `StartDir` fallback reads `StartDir` a second time instead of
`startdir` (a copy-paste slip breaking the pattern of the adjacent lines),
so an entry carrying only the lowercase `startdir` key loses its start
directory: the extractor returns an empty string even though `startdir`
holds `"/d"`. The name and exe fallbacks and the `appid` read succeed on
the same entry, and an entry whose name resolves to empty is dropped. -/
theorem extractGameInfo_startdir_bug :
    extractGameInfo lowercaseEntry
        = some ⟨.vstr "G", .vstr "e", .vstr "", .vint 7⟩
      ∧ vdfLookup lowercaseEntry "startdir" = some (.vstr "/d")
      ∧ extractGameInfo [("Exe", .vstr "e")] = none := ⟨rfl, rfl, rfl⟩

/-! ## Claim C3: unrecognized type tags in the binary container -/

/-- Container whose `shortcuts` map holds one complete indexed entry
(`AppName = "Game1"`) followed by an entry that begins with the
unrecognized type tag `0x03`. -/
def unknownTagBytes : List Nat :=
  [0] ++ strBytes "shortcuts" ++ [0]
    ++ [0] ++ strBytes "0" ++ [0]
      ++ [1] ++ strBytes "AppName" ++ [0] ++ strBytes "Game1" ++ [0]
      ++ [8]
    ++ [3]

/-- Claim C3 is false as stated: on a container where an entry begins with
the unrecognized tag `0x03`, decoding does not fail — the source's
`else: break` ends the section silently — and the record parsed before the
bad tag is returned, not zero records. -/
theorem shortcutsParse_unknown_tag_counterexample :
    shortcutsParse unknownTagBytes
      = .ok [⟨.vstr "Game1", .vstr "", .vstr "", .vint 0⟩] := rfl

/-- Claim C3 (amended): an entry beginning with a type tag other than
0x00, 0x01, 0x02 or 0x08 does not raise any error: `_parse_section` stops
the current section at the tag (consuming it) and the records decoded
before it are still returned, as on `unknownTagBytes`. -/
theorem parseSection_unknown_tag (k t : Nat) (rest : List Nat)
    (h0 : t ≠ 0) (h1 : t ≠ 1) (h2 : t ≠ 2) (h8 : t ≠ 8) :
    parseSectionF (k + 1) (t :: rest) = .ok ([], rest)
      ∧ shortcutsParse unknownTagBytes
        = .ok [⟨.vstr "Game1", .vstr "", .vstr "", .vint 0⟩] :=
  ⟨by simp [parseSectionF, h0, h1, h2, h8], rfl⟩

/-- Witness for the amended claim C3 at tag `0x03`. -/
theorem parseSection_unknown_tag_witness :
    parseSectionF 1 [3] = .ok ([], []) :=
  (parseSection_unknown_tag 0 3 [] (by decide) (by decide) (by decide)
    (by decide)).1

/-! ## Claims C4 and C7: sync run aggregation and dry-run framing -/

/-- Helper: the per-file record carries the comparison's filename and
classification in every branch of the loop body. -/
theorem syncStep_rec1_name_action (d : Bool) (ts : String)
    (fc : String → Bool) (c : FileCmp) (act : SyncAction) (lD cD bD : Dir) :
    (syncStep d ts fc c act lD cD bD).rec1.filename = c.filename
      ∧ (syncStep d ts fc c act lD cD bD).rec1.action = act := by
  cases act <;> cases d <;> simp [syncStep] <;> split <;> simp

/-- Helper: with `dry_run` set, the loop body leaves all three directories
untouched. -/
theorem syncStep_dry_frame (ts : String) (fc : String → Bool) (c : FileCmp)
    (act : SyncAction) (lD cD bD : Dir) :
    (syncStep true ts fc c act lD cD bD).localD = lD
      ∧ (syncStep true ts fc c act lD cD bD).cloudD = cD
      ∧ (syncStep true ts fc c act lD cD bD).backupD = bD := by
  cases act <;> simp [syncStep]

/-- Helper: over any comparison list, the run reports `success = true` (the
modelled failure modes are all caught before the `except` branch that would
clear it) and records one action per comparison, carrying exactly the
comparator's classification. -/
theorem syncGo_invariants (dryRun : Bool) (ts : String)
    (failCopy : String → Bool) (lst : Option Rat) :
    ∀ (comps : List FileCmp) (lD cD bD : Dir),
      (syncGo dryRun ts failCopy lst comps lD cD bD).1.success = true
        ∧ (syncGo dryRun ts failCopy lst comps lD cD bD).1.actions.map
            (fun a => (a.filename, a.action))
          = comps.map (fun c => (c.filename, determineAction c lst)) := by
  intro comps
  induction comps with
  | nil => intro lD cD bD; simp [syncGo]
  | cons c rest ih =>
    intro lD cD bD
    have hr := syncStep_rec1_name_action dryRun ts failCopy c
      (determineAction c lst) lD cD bD
    simp [syncGo, hr.1, hr.2, (ih _ _ _).1, (ih _ _ _).2]

/-- Helper: with `dry_run` set, the loop never changes the directories. -/
theorem syncGo_dry_frame (ts : String) (failCopy : String → Bool)
    (lst : Option Rat) :
    ∀ (comps : List FileCmp) (lD cD bD : Dir),
      (syncGo true ts failCopy lst comps lD cD bD).2 = (lD, cD, bD) := by
  intro comps
  induction comps with
  | nil => intro lD cD bD; simp [syncGo]
  | cons c rest ih =>
    intro lD cD bD
    have hs := syncStep_dry_frame ts failCopy c (determineAction c lst) lD cD bD
    simp [syncGo, hs.1, hs.2.1, hs.2.2, ih]

/-- Claim C4 is false as stated: with one local-only file whose copy to the
cloud fails, the failure is recorded in `errors` — a per-file operation
errored — yet `success` remains `true`, because the source clears
`results["success"]` only in the `except` branch and a failed
`copy_file` merely appends to `errors`. -/
theorem syncFiles_copy_failure_counterexample :
    (syncFiles [("a", ⟨100, 1⟩)] [] [] none false "T"
        (fun n => n == "a")).1.success = true
      ∧ (syncFiles [("a", ⟨100, 1⟩)] [] [] none false "T"
        (fun n => n == "a")).1.errors = ["Failed to copy a to cloud"] := by
  decide

/-- Claim C4 (amended): `success` stays `true` on every run — the source
clears it only when an unexpected exception escapes a per-file operation,
and every modelled failure (a failed copy) is caught inside `copy_file`
and recorded in `errors` instead — so conflicts never affect it, and a
per-file failure never aborts the run: exactly one action is recorded per
compared file. -/
theorem syncFiles_success_no_abort (localD cloudD backupD : Dir)
    (lastSync : Option String) (dryRun : Bool) (ts : String)
    (failCopy : String → Bool) :
    (syncFiles localD cloudD backupD lastSync dryRun ts failCopy).1.success
        = true
      ∧ (syncFiles localD cloudD backupD lastSync dryRun ts
          failCopy).1.actions.length
        = (compareDirectories localD cloudD lastSync).length := by
  have h := syncGo_invariants dryRun ts failCopy (pyLastSyncTime lastSync)
    (compareDirectories localD cloudD lastSync) localD cloudD backupD
  refine ⟨h.1, ?_⟩
  have := congrArg List.length h.2
  simpa using this

/-- Claim C7: a dry run leaves the local, cloud and backup directories
exactly as they were, and both the dry run and the real run on the same
state record per file exactly the comparator's classification, so the two
classifications agree. -/
theorem syncFiles_dry_run_frame (localD cloudD backupD : Dir)
    (lastSync : Option String) (ts : String) (failCopy : String → Bool) :
    (syncFiles localD cloudD backupD lastSync true ts failCopy).2
        = (localD, cloudD, backupD)
      ∧ (syncFiles localD cloudD backupD lastSync true ts
          failCopy).1.actions.map (fun a => (a.filename, a.action))
        = (compareDirectories localD cloudD lastSync).map
            (fun c => (c.filename, cmpAction lastSync c))
      ∧ (syncFiles localD cloudD backupD lastSync false ts
          failCopy).1.actions.map (fun a => (a.filename, a.action))
        = (compareDirectories localD cloudD lastSync).map
            (fun c => (c.filename, cmpAction lastSync c)) := by
  refine ⟨?_, ?_, ?_⟩
  · exact syncGo_dry_frame ts failCopy (pyLastSyncTime lastSync)
      (compareDirectories localD cloudD lastSync) localD cloudD backupD
  · exact (syncGo_invariants true ts failCopy (pyLastSyncTime lastSync)
      (compareDirectories localD cloudD lastSync) localD cloudD backupD).2
  · exact (syncGo_invariants false ts failCopy (pyLastSyncTime lastSync)
      (compareDirectories localD cloudD lastSync) localD cloudD backupD).2

/-! ## Claim C8: save-directory search results -/

/-- Filesystem on which the install-directory tier and the common-location
tier produce an ancestor/descendant pair: the game directory holds an
(empty) literal `save` subdirectory and a save-like file directly. -/
def ancestorTree : FsTree :=
  .dir "" [.dir "home" [.dir "Documents" [.dir "MyGame"
    [.file "notes_save.txt", .dir "save" []]]]]

/-- Game descriptor whose install directory sits under the Documents
common location. -/
def ancestorGame : DetGame := ⟨"MyGame", some ["home", "Documents", "MyGame"], 0⟩

/-- Claim C8 is false as stated: on `ancestorTree` (Windows platform), the
install-directory tier contributes `.../MyGame/save` (the literal `save`
sibling) while the common-location tier contributes `.../MyGame` itself
(it directly holds a save-like file), and the final `list(set(...))` keeps
both, so the result contains a path together with its proper ancestor. -/
theorem findSaveDirectories_ancestor_counterexample :
    ["home", "Documents", "MyGame"]
        ∈ findSaveDirectories ancestorTree ["home"] "windows" ancestorGame
            ["steam"]
      ∧ ["home", "Documents", "MyGame", "save"]
        ∈ findSaveDirectories ancestorTree ["home"] "windows" ancestorGame
            ["steam"]
      ∧ isAncestorPath ["home", "Documents", "MyGame"]
          ["home", "Documents", "MyGame", "save"] = true := by
  decide

/-- Claim C8 (amended): `find_save_directories` returns the deduplicated
candidate set — no path occurs twice — but in the arbitrary iteration
order of a Python set rather than any confidence order, and the list may
contain a directory together with its own descendant when the candidates
come from different search tiers (only `_find_save_subdirs` removes
ancestors, within a single call). -/
theorem findSaveDirectories_nodup (root : FsTree) (home : FPath)
    (osType : String) (g : DetGame) (steamPath : FPath) :
    (findSaveDirectories root home osType g steamPath).Nodup := by
  unfold findSaveDirectories pySetList
  exact List.nodup_dedup _

/-! ## Claim C10: malformed `last_sync` in `detect_conflict` -/

/-- Two existing files, one second apart. -/
def tolerancePair : RFs :=
  [(["l", "s.dat"], ⟨10, 1⟩), (["c", "s.dat"], ⟨11, 2⟩)]

/-- Claim C10 is false as stated: the empty string is not valid ISO-8601,
yet `detect_conflict` does not raise on it — `if not last_sync:` treats it
as absent by truthiness and the call returns a boolean (here `false`, the
mtimes being within the 2-second tolerance). -/
theorem detectConflict_empty_string_counterexample :
    detectConflict tolerancePair ["l", "s.dat"] ["c", "s.dat"] (some "")
        = .ok false
      ∧ fromisoformat "" = none := by
  have habs : (decide (2 < |(10 : Rat) - 11|)) = false := by norm_num
  exact ⟨by simp [detectConflict, tolerancePair, fsLookup, habs], rfl⟩

/-- Claim C10 (amended): for two existing files and a non-empty `last_sync`
string that fails ISO-8601 parsing, `detect_conflict` raises `ValueError`
from `datetime.fromisoformat` instead of returning a boolean, while the
comparator path (`pyLastSyncTime`) swallows the same failure and treats the
string as absent; the empty string is treated as absent by truthiness, and
with a parseable or absent `last_sync` the call always returns a boolean. -/
theorem detectConflict_malformed_raises (fs : RFs) (localP cloudP : FPath)
    (fl fc : FData) (s s2 : String) (t2 : Int)
    (hl : fsLookup fs localP = some fl) (hc : fsLookup fs cloudP = some fc)
    (hne : s ≠ "") (hbad : fromisoformat s = none)
    (hne2 : s2 ≠ "") (hgood : fromisoformat s2 = some t2) :
    detectConflict fs localP cloudP (some s)
        = .error "ValueError: invalid isoformat string"
      ∧ pyLastSyncTime (some s) = none
      ∧ detectConflict fs localP cloudP (some s2)
        = .ok (decide ((t2 : Rat) + 1 < fl.mtime)
            && decide ((t2 : Rat) + 1 < fc.mtime))
      ∧ detectConflict fs localP cloudP none
        = .ok (decide (2 < |fl.mtime - fc.mtime|)) := by
  refine ⟨?_, ?_, ?_, ?_⟩ <;>
    simp [detectConflict, pyLastSyncTime, hl, hc, hne, hbad, hne2, hgood]

/-- Witness for the amended claim C10 at `s = "not-a-date"` and
`s2 = "2024-01-02T03:04:05"`. -/
theorem detectConflict_malformed_raises_witness :
    detectConflict tolerancePair ["l", "s.dat"] ["c", "s.dat"]
        (some "not-a-date")
      = .error "ValueError: invalid isoformat string" :=
  (detectConflict_malformed_raises tolerancePair ["l", "s.dat"]
    ["c", "s.dat"] ⟨10, 1⟩ ⟨11, 2⟩ "not-a-date" "2024-01-02T03:04:05"
    1704164645 (by decide) (by decide) (by decide) (by decide) (by decide)
    (by decide)).1

/-! ## Claim C5: backups precede every conflict-resolution overwrite -/

/-- Operation that writes a file directly inside the backup directory. -/
def writesInto (backupDir : FPath) : FsOp → Bool
  | .copyBytes _ d => d.dropLast = backupDir
  | _ => false

/-- Helper: execution under any failure oracle performs a front segment of
the trace (Python stops at the first raised exception). -/
theorem execOps_front (oracle : FsOp → Bool) (now : Rat) :
    ∀ (ops : List FsOp) (fs : RFs),
      ∃ k, (execOps oracle now fs ops).2 = ops.take k := by
  intro ops
  induction ops with
  | nil => intro fs; exact ⟨0, by simp [execOps]⟩
  | cons op rest ih =>
    intro fs
    simp only [execOps]
    split
    · exact ⟨0, by simp⟩
    · cases h : applyOp now fs op with
      | none => exact ⟨0, by simp⟩
      | some fs2 =>
        obtain ⟨k, hk⟩ := ih fs2
        exact ⟨k + 1, by simp [hk]⟩

/-- Claim C5: on two existing files, every strategy's trace starts with the
two backup writes `<name>.<ts>.local.conflict` / `<name>.<ts>.cloud.conflict`
into the backup directory — and those are the only backup-directory writes
in the trace, so exactly two backup files are written — and under every
failure oracle execution performs a front segment (`List.take`) of the
trace, so whenever any strategy operation (an overwrite or rename of an
original) has executed, both backup writes completed before it; a failed
backup write stops the run before any original is touched. -/
theorem resolveConflict_backup_order (fs : RFs)
    (localP cloudP backupDir : FPath) (strat : Strategy) (ts : String)
    (oracle : FsOp → Bool) (now : Rat) (fl fc : FData)
    (hl : fsLookup fs localP = some fl) (hc : fsLookup fs cloudP = some fc)
    (hpl : localP.dropLast ≠ backupDir) (hpc : cloudP.dropLast ≠ backupDir) :
    resolveConflictOps fs localP cloudP strat backupDir ts
        = .mkdirp backupDir
          :: .copyBytes localP (conflictBackupPath backupDir localP ts "local")
          :: .copyBytes cloudP (conflictBackupPath backupDir localP ts "cloud")
          :: strategyOps localP cloudP ts strat
      ∧ (resolveConflictOps fs localP cloudP strat backupDir ts).filter
          (writesInto backupDir)
        = [.copyBytes localP (conflictBackupPath backupDir localP ts "local"),
           .copyBytes cloudP (conflictBackupPath backupDir localP ts "cloud")]
      ∧ (∃ k, (execOps oracle now fs
            (resolveConflictOps fs localP cloudP strat backupDir ts)).2
          = (resolveConflictOps fs localP cloudP strat backupDir ts).take k)
      ∧ (3 < (execOps oracle now fs
            (resolveConflictOps fs localP cloudP strat backupDir ts)).2.length →
          .copyBytes localP (conflictBackupPath backupDir localP ts "local")
              ∈ (execOps oracle now fs
                (resolveConflictOps fs localP cloudP strat backupDir ts)).2
            ∧ .copyBytes cloudP (conflictBackupPath backupDir localP ts "cloud")
              ∈ (execOps oracle now fs
                (resolveConflictOps fs localP cloudP strat backupDir ts)).2) := by
  have htrace : resolveConflictOps fs localP cloudP strat backupDir ts
      = .mkdirp backupDir
        :: .copyBytes localP (conflictBackupPath backupDir localP ts "local")
        :: .copyBytes cloudP (conflictBackupPath backupDir localP ts "cloud")
        :: strategyOps localP cloudP ts strat := by
    simp [resolveConflictOps, conflictBackupOps, hl, hc]
  have hpre := execOps_front oracle now
    (resolveConflictOps fs localP cloudP strat backupDir ts) fs
  refine ⟨htrace, ?_, hpre, ?_⟩
  · rw [htrace]
    cases strat <;>
      simp [writesInto, strategyOps, conflictBackupPath,
        List.dropLast_concat, hpl, hpc]
  · intro hlen
    obtain ⟨k, hex⟩ := hpre
    have hk4 : 3 < k := by
      have := congrArg List.length hex
      rw [List.length_take] at this
      omega
    obtain ⟨k2, hk2⟩ : ∃ k2, k = k2 + 4 := ⟨k - 4, by omega⟩
    rw [hk2, htrace] at hex
    simp only [List.take_succ_cons] at hex
    rw [htrace, hex]
    exact ⟨by simp, by simp⟩


/-! ## Claim C6: KeepBoth renames -/

/-- Helper: writing a path makes it readable. -/
theorem fsLookup_fsSet_self (fs : RFs) (p : FPath) (f : FData) :
    fsLookup (fsSet fs p f) p = some f := by
  induction fs with
  | nil => simp [fsSet, fsLookup]
  | cons e rest ih =>
    obtain ⟨k, g⟩ := e
    by_cases h : k = p <;> simp [fsSet, fsLookup, h, ih]

/-- Helper: writing one path leaves other paths unchanged. -/
theorem fsLookup_fsSet_ne (fs : RFs) {p q : FPath} (f : FData)
    (h : q ≠ p) : fsLookup (fsSet fs p f) q = fsLookup fs q := by
  have hpq : ¬ p = q := fun hh => h hh.symm
  induction fs with
  | nil => simp [fsSet, fsLookup, hpq]
  | cons e rest ih =>
    obtain ⟨k, g⟩ := e
    by_cases h1 : k = p
    · simp [fsSet, fsLookup, h1, hpq]
    · by_cases h2 : k = q <;> simp [fsSet, fsLookup, h1, h2, h, ih]

/-- Helper: removing one path leaves other paths unchanged. -/
theorem fsLookup_fsRemove_ne (fs : RFs) {p q : FPath} (h : q ≠ p) :
    fsLookup (fsRemove fs p) q = fsLookup fs q := by
  have hpq : ¬ p = q := fun hh => h hh.symm
  induction fs with
  | nil => simp [fsRemove]
  | cons e rest ih =>
    obtain ⟨k, g⟩ := e
    by_cases h1 : k = p
    · simp [fsRemove, fsLookup, h1, hpq]
    · by_cases h2 : k = q <;> simp [fsRemove, fsLookup, h1, h2, h, ih]

/-- Helper: a path is unreadable exactly when it is not among the keys. -/
theorem fsLookup_eq_none_iff (fs : RFs) (p : FPath) :
    fsLookup fs p = none ↔ p ∉ fs.map Prod.fst := by
  induction fs with
  | nil => simp [fsLookup]
  | cons e rest ih =>
    obtain ⟨k, g⟩ := e
    by_cases h : k = p
    · subst h
      refine iff_of_false ?_ ?_
      · simp [fsLookup]
      · intro hno
        exact hno (by rw [List.map_cons]; exact List.mem_cons_self _ _)
    · simp only [fsLookup, if_neg h, List.map_cons, List.mem_cons, ih]
      constructor
      · intro hnm hor
        rcases hor with h1 | h2
        · exact h h1.symm
        · exact hnm h2
      · exact fun hno hm => hno (Or.inr hm)

/-- Helper: with unique keys, removing a path makes it unreadable. -/
theorem fsLookup_fsRemove_self (fs : RFs) (p : FPath)
    (hnd : (fs.map Prod.fst).Nodup) :
    fsLookup (fsRemove fs p) p = none := by
  induction fs with
  | nil => simp [fsRemove, fsLookup]
  | cons e rest ih =>
    obtain ⟨k, g⟩ := e
    rw [List.map_cons, List.nodup_cons] at hnd
    by_cases h : k = p
    · subst h
      simp only [fsRemove, if_pos rfl]
      exact (fsLookup_eq_none_iff rest k).mpr hnd.1
    · simp only [fsRemove, if_neg h, fsLookup]
      exact ih hnd.2

/-- Helper: writing a fresh path appends one entry. -/
theorem fsSet_length_absent (fs : RFs) (p : FPath) (f : FData)
    (h : fsLookup fs p = none) : (fsSet fs p f).length = fs.length + 1 := by
  induction fs with
  | nil => simp [fsSet]
  | cons e rest ih =>
    obtain ⟨k, g⟩ := e
    by_cases h1 : k = p
    · rw [fsLookup, if_pos h1] at h
      exact absurd h (by simp)
    · rw [fsLookup, if_neg h1] at h
      simp [fsSet, h1, ih h]

/-- Helper: removing a present path drops one entry. -/
theorem fsRemove_length_present (fs : RFs) (p : FPath) (f : FData)
    (h : fsLookup fs p = some f) :
    fs.length = (fsRemove fs p).length + 1 := by
  induction fs with
  | nil => simp [fsLookup] at h
  | cons e rest ih =>
    obtain ⟨k, g⟩ := e
    by_cases h1 : k = p
    · simp [fsRemove, h1]
    · rw [fsLookup, if_neg h1] at h
      simp [fsRemove, h1, ih h]

/-- Helper: writing a fresh path appends its key. -/
theorem fsSet_keys_absent (fs : RFs) (p : FPath) (f : FData)
    (h : fsLookup fs p = none) :
    (fsSet fs p f).map Prod.fst = fs.map Prod.fst ++ [p] := by
  induction fs with
  | nil => simp [fsSet]
  | cons e rest ih =>
    obtain ⟨k, g⟩ := e
    by_cases h1 : k = p
    · rw [fsLookup, if_pos h1] at h
      exact absurd h (by simp)
    · rw [fsLookup, if_neg h1] at h
      simp [fsSet, h1, ih h]

/-- Helper: removal keeps a sublist of the keys. -/
theorem fsRemove_keys_sublist (fs : RFs) (p : FPath) :
    ((fsRemove fs p).map Prod.fst).Sublist (fs.map Prod.fst) := by
  induction fs with
  | nil => simp [fsRemove]
  | cons e rest ih =>
    obtain ⟨k, g⟩ := e
    by_cases h1 : k = p
    · simp only [fsRemove, if_pos h1, List.map_cons]
      exact (List.sublist_cons_self _ _)
    · simp only [fsRemove, if_neg h1, List.map_cons]
      exact ih.cons₂ k

/-- Helper: a list stays duplicate-free after appending a fresh element. -/
theorem nodupConcat {l : List FPath} {a : FPath} (h : l.Nodup)
    (ha : a ∉ l) : (l ++ [a]).Nodup := by
  rw [List.nodup_append]
  refine ⟨h, List.nodup_singleton a, ?_⟩
  intro x hx hxa
  rw [List.mem_singleton] at hxa
  exact ha (hxa ▸ hx)

/-- Claim C6: resolving with `KEEP_BOTH` renames (it does not copy) both
originals in place — the strategy trace is exactly two renames whose
targets insert `.<timestamp>.local` / `.<timestamp>.cloud` before the
original extension — so afterwards neither canonical path is occupied, the
two renamed files hold the original data, the two conflict backups hold
the original contents, and the filesystem has grown by exactly 2 entries:
four files now stand for the two inputs. Stated for any filesystem with
unique keys in which the four produced names are fresh and the six paths
involved are pairwise distinct. -/
theorem resolveConflict_keepBoth (fs : RFs)
    (localP cloudP backupDir : FPath) (ts : String) (now : Rat)
    (fl fc : FData)
    (hnd : (fs.map Prod.fst).Nodup)
    (hl : fsLookup fs localP = some fl)
    (hc : fsLookup fs cloudP = some fc)
    (hLC : localP ≠ cloudP)
    (hfrl : fsLookup fs (keepBothPath localP ts "local") = none)
    (hfrc : fsLookup fs (keepBothPath cloudP ts "cloud") = none)
    (hfbL : fsLookup fs (conflictBackupPath backupDir localP ts "local") = none)
    (hfbC : fsLookup fs (conflictBackupPath backupDir localP ts "cloud") = none)
    (hrlL : keepBothPath localP ts "local" ≠ localP)
    (hrlC : keepBothPath localP ts "local" ≠ cloudP)
    (hrcL : keepBothPath cloudP ts "cloud" ≠ localP)
    (hrcC : keepBothPath cloudP ts "cloud" ≠ cloudP)
    (hrlrc : keepBothPath localP ts "local" ≠ keepBothPath cloudP ts "cloud")
    (hbLL : conflictBackupPath backupDir localP ts "local" ≠ localP)
    (hbLC : conflictBackupPath backupDir localP ts "local" ≠ cloudP)
    (hbCL : conflictBackupPath backupDir localP ts "cloud" ≠ localP)
    (hbCC : conflictBackupPath backupDir localP ts "cloud" ≠ cloudP)
    (hbLbC : conflictBackupPath backupDir localP ts "local"
      ≠ conflictBackupPath backupDir localP ts "cloud")
    (hbLrl : conflictBackupPath backupDir localP ts "local"
      ≠ keepBothPath localP ts "local")
    (hbLrc : conflictBackupPath backupDir localP ts "local"
      ≠ keepBothPath cloudP ts "cloud")
    (hbCrl : conflictBackupPath backupDir localP ts "cloud"
      ≠ keepBothPath localP ts "local")
    (hbCrc : conflictBackupPath backupDir localP ts "cloud"
      ≠ keepBothPath cloudP ts "cloud") :
    strategyOps localP cloudP ts .keepBoth
        = [.rename localP (keepBothPath localP ts "local"),
           .rename cloudP (keepBothPath cloudP ts "cloud")]
      ∧ fsLookup ((execOps (fun _ => false) now fs
            (resolveConflictOps fs localP cloudP .keepBoth backupDir ts)).1)
          localP = none
      ∧ fsLookup ((execOps (fun _ => false) now fs
            (resolveConflictOps fs localP cloudP .keepBoth backupDir ts)).1)
          cloudP = none
      ∧ fsLookup ((execOps (fun _ => false) now fs
            (resolveConflictOps fs localP cloudP .keepBoth backupDir ts)).1)
          (keepBothPath localP ts "local") = some fl
      ∧ fsLookup ((execOps (fun _ => false) now fs
            (resolveConflictOps fs localP cloudP .keepBoth backupDir ts)).1)
          (keepBothPath cloudP ts "cloud") = some fc
      ∧ fsLookup ((execOps (fun _ => false) now fs
            (resolveConflictOps fs localP cloudP .keepBoth backupDir ts)).1)
          (conflictBackupPath backupDir localP ts "local")
        = some ⟨now, fl.content⟩
      ∧ fsLookup ((execOps (fun _ => false) now fs
            (resolveConflictOps fs localP cloudP .keepBoth backupDir ts)).1)
          (conflictBackupPath backupDir localP ts "cloud")
        = some ⟨now, fc.content⟩
      ∧ ((execOps (fun _ => false) now fs
            (resolveConflictOps fs localP cloudP .keepBoth backupDir ts)).1).length
        = fs.length + 2 := by
  set rl := keepBothPath localP ts "local" with hrl
  set rc := keepBothPath cloudP ts "cloud" with hrc
  set bL := conflictBackupPath backupDir localP ts "local" with hbL
  set bC := conflictBackupPath backupDir localP ts "cloud" with hbC
  set fs2 := fsSet fs bL ⟨now, fl.content⟩ with hfs2
  set fs3 := fsSet fs2 bC ⟨now, fc.content⟩ with hfs3
  set fs4 := fsSet (fsRemove fs3 localP) rl fl with hfs4
  set fs5 := fsSet (fsRemove fs4 cloudP) rc fc with hfs5
  -- the operation trace
  have hops : resolveConflictOps fs localP cloudP .keepBoth backupDir ts
      = [.mkdirp backupDir, .copyBytes localP bL, .copyBytes cloudP bC,
         .rename localP rl, .rename cloudP rc] := by
    simp [resolveConflictOps, conflictBackupOps, strategyOps, hl, hc]
  -- intermediate lookups driving the execution
  have e1 : fsLookup fs2 cloudP = some fc := by
    rw [hfs2, fsLookup_fsSet_ne _ _ (Ne.symm hbLC)]; exact hc
  have e2 : fsLookup fs3 localP = some fl := by
    rw [hfs3, fsLookup_fsSet_ne _ _ (Ne.symm hbCL), hfs2,
      fsLookup_fsSet_ne _ _ (Ne.symm hbLL)]
    exact hl
  have e2c : fsLookup fs3 cloudP = some fc := by
    rw [hfs3, fsLookup_fsSet_ne _ _ (Ne.symm hbCC)]; exact e1
  have e3 : fsLookup fs4 cloudP = some fc := by
    rw [hfs4, fsLookup_fsSet_ne _ _ (Ne.symm hrlC),
      fsLookup_fsRemove_ne _ (Ne.symm hLC)]
    exact e2c
  -- the final filesystem
  have hfin : (execOps (fun _ => false) now fs
      (resolveConflictOps fs localP cloudP .keepBoth backupDir ts)).1 = fs5 := by
    rw [hops]
    simp only [execOps, applyOp, hl, e1, e2, e3, if_false, Bool.false_eq_true,
      ite_false]
  -- key sets and their uniqueness
  have hbLmem : bL ∉ fs.map Prod.fst := (fsLookup_eq_none_iff fs bL).mp hfbL
  have hk2 : fs2.map Prod.fst = fs.map Prod.fst ++ [bL] :=
    fsSet_keys_absent fs bL _ hfbL
  have hf2bC : fsLookup fs2 bC = none := by
    rw [hfs2, fsLookup_fsSet_ne _ _ (Ne.symm hbLbC)]; exact hfbC
  have hk3 : fs3.map Prod.fst = (fs.map Prod.fst ++ [bL]) ++ [bC] := by
    rw [hfs3, fsSet_keys_absent fs2 bC _ hf2bC, hk2]
  have hbCmem2 : bC ∉ fs.map Prod.fst ++ [bL] := by
    intro hmem
    rcases List.mem_append.mp hmem with hmem1 | hmem2
    · exact (fsLookup_eq_none_iff fs bC).mp hfbC hmem1
    · exact hbLbC (List.mem_singleton.mp hmem2).symm
  have hnd2 : (fs2.map Prod.fst).Nodup := by
    rw [hk2]; exact nodupConcat hnd hbLmem
  have hnd3 : (fs3.map Prod.fst).Nodup := by
    rw [hk3]; exact nodupConcat (hk2 ▸ hnd2) hbCmem2
  have hf3rl : fsLookup fs3 rl = none := by
    rw [hfs3, fsLookup_fsSet_ne _ _ (Ne.symm hbCrl), hfs2,
      fsLookup_fsSet_ne _ _ (Ne.symm hbLrl)]
    exact hfrl
  have hremrl : fsLookup (fsRemove fs3 localP) rl = none := by
    rw [fsLookup_eq_none_iff]
    intro hmem
    exact ((fsLookup_eq_none_iff fs3 rl).mp hf3rl)
      ((fsRemove_keys_sublist fs3 localP).subset hmem)
  have hndrem3 : ((fsRemove fs3 localP).map Prod.fst).Nodup :=
    (fsRemove_keys_sublist fs3 localP).nodup hnd3
  have hk4 : fs4.map Prod.fst
      = (fsRemove fs3 localP).map Prod.fst ++ [rl] := by
    rw [hfs4, fsSet_keys_absent _ rl _ hremrl]
  have hnd4 : (fs4.map Prod.fst).Nodup := by
    rw [hk4]
    exact nodupConcat hndrem3 ((fsLookup_eq_none_iff _ rl).mp hremrl)
  -- final lookups
  rw [hfin]
  refine ⟨rfl, ?_, ?_, ?_, ?_, ?_, ?_, ?_⟩
  · rw [hfs5, fsLookup_fsSet_ne _ _ (Ne.symm hrcL),
      fsLookup_fsRemove_ne _ hLC, hfs4,
      fsLookup_fsSet_ne _ _ (Ne.symm hrlL)]
    exact fsLookup_fsRemove_self fs3 localP hnd3
  · rw [hfs5, fsLookup_fsSet_ne _ _ (Ne.symm hrcC)]
    exact fsLookup_fsRemove_self fs4 cloudP hnd4
  · rw [hfs5, fsLookup_fsSet_ne _ _ hrlrc,
      fsLookup_fsRemove_ne _ hrlC, hfs4]
    exact fsLookup_fsSet_self _ rl fl
  · rw [hfs5]
    exact fsLookup_fsSet_self _ rc fc
  · rw [hfs5, fsLookup_fsSet_ne _ _ hbLrc,
      fsLookup_fsRemove_ne _ hbLC, hfs4,
      fsLookup_fsSet_ne _ _ hbLrl,
      fsLookup_fsRemove_ne _ hbLL, hfs3,
      fsLookup_fsSet_ne _ _ hbLbC, hfs2]
    exact fsLookup_fsSet_self _ bL _
  · rw [hfs5, fsLookup_fsSet_ne _ _ hbCrc,
      fsLookup_fsRemove_ne _ hbCC, hfs4,
      fsLookup_fsSet_ne _ _ hbCrl,
      fsLookup_fsRemove_ne _ hbCL, hfs3]
    exact fsLookup_fsSet_self _ bC _
  · -- length bookkeeping
    have hrem4rc : fsLookup (fsRemove fs4 cloudP) rc = none := by
      rw [fsLookup_fsRemove_ne _ hrcC, hfs4,
        fsLookup_fsSet_ne _ _ (Ne.symm hrlrc),
        fsLookup_fsRemove_ne _ hrcL, hfs3,
        fsLookup_fsSet_ne _ _ (Ne.symm hbCrc), hfs2,
        fsLookup_fsSet_ne _ _ (Ne.symm hbLrc)]
      exact hfrc
    have l2 : fs2.length = fs.length + 1 := fsSet_length_absent fs bL _ hfbL
    have l3 : fs3.length = fs2.length + 1 := fsSet_length_absent fs2 bC _ hf2bC
    have l4a : fs3.length = (fsRemove fs3 localP).length + 1 :=
      fsRemove_length_present fs3 localP fl e2
    have l4b : fs4.length = (fsRemove fs3 localP).length + 1 :=
      fsSet_length_absent _ rl fl hremrl
    have l5a : fs4.length = (fsRemove fs4 cloudP).length + 1 :=
      fsRemove_length_present fs4 cloudP fc e3
    have l5b : fs5.length = (fsRemove fs4 cloudP).length + 1 :=
      fsSet_length_absent _ rc fc hrem4rc
    omega

/-! ## Claim C2: directional sync primitives -/

/-- Helper: writing a filename makes it readable. -/
theorem dirLookup_dirSet_self (d : Dir) (n : String) (f : FData) :
    dirLookup (dirSet d n f) n = some f := by
  induction d with
  | nil => simp [dirSet, dirLookup]
  | cons e rest ih =>
    obtain ⟨k, g⟩ := e
    by_cases h : k = n <;> simp [dirSet, dirLookup, h, ih]

/-- Helper: writing one filename leaves the others unchanged. -/
theorem dirLookup_dirSet_ne (d : Dir) {n m : String} (f : FData)
    (h : m ≠ n) : dirLookup (dirSet d n f) m = dirLookup d m := by
  have hnm : ¬ n = m := fun hh => h hh.symm
  induction d with
  | nil => simp [dirSet, dirLookup, hnm]
  | cons e rest ih =>
    obtain ⟨k, g⟩ := e
    by_cases h1 : k = n
    · simp [dirSet, dirLookup, h1, hnm]
    · by_cases h2 : k = m <;> simp [dirSet, dirLookup, h1, h2, h, ih]

/-- Helper: the push loop writes only filenames present in its source
listing. -/
theorem pushDirGo_not_written (force : Bool) (reason : String) :
    ∀ (src : List (String × FData)) (dst : Dir) (n : String),
      n ∉ src.map Prod.fst →
      dirLookup (pushDirGo force reason src dst).2 n = dirLookup dst n := by
  intro src
  induction src with
  | nil => intro dst n _; simp [pushDirGo]
  | cons e rest ih =>
    intro dst n hn
    obtain ⟨m, g⟩ := e
    rw [List.map_cons, List.mem_cons] at hn
    push_neg at hn
    cases hdec : pushDecision force reason g.mtime
        ((dirLookup dst m).map FData.mtime) with
    | none =>
      simp only [pushDirGo, hdec]
      rw [ih _ n hn.2, dirLookup_dirSet_ne _ _ hn.1]
    | some r =>
      simp only [pushDirGo, hdec]
      exact ih _ n hn.2

/-- Helper: per-file behavior of the push loop. Whenever the per-file
decision says copy, the file lands in `copied` and the destination ends up
holding the source data; whenever it says skip with a reason, the pair is
recorded in `skipped` and the destination entry survives untouched. -/
theorem pushDirGo_spec (force : Bool) (reason : String) :
    ∀ (src : List (String × FData)) (dst : Dir) (n : String) (fd : FData),
      (src.map Prod.fst).Nodup → dirLookup src n = some fd →
      ((pushDecision force reason fd.mtime
          ((dirLookup dst n).map FData.mtime) = none →
        n ∈ (pushDirGo force reason src dst).1.copied
          ∧ dirLookup (pushDirGo force reason src dst).2 n = some fd)
      ∧ ∀ r, pushDecision force reason fd.mtime
          ((dirLookup dst n).map FData.mtime) = some r →
        (n, r) ∈ (pushDirGo force reason src dst).1.skipped
          ∧ dirLookup (pushDirGo force reason src dst).2 n
            = dirLookup dst n) := by
  intro src
  induction src with
  | nil => intro dst n fd _ hlk; simp [dirLookup] at hlk
  | cons e rest ih =>
    intro dst n fd hnd hlk
    obtain ⟨m, g⟩ := e
    rw [List.map_cons, List.nodup_cons] at hnd
    by_cases hm : m = n
    · subst hm
      rw [dirLookup, if_pos rfl] at hlk
      have hfd : g = fd := by injection hlk
      rw [hfd]
      cases hdec : pushDecision force reason fd.mtime
          ((dirLookup dst m).map FData.mtime) with
      | none =>
        simp only [pushDirGo, hdec]
        constructor
        · intro _
          refine ⟨List.mem_cons_self _ _, ?_⟩
          rw [pushDirGo_not_written force reason rest _ m hnd.1]
          exact dirLookup_dirSet_self dst m fd
        · intro r hr
          exact absurd hr (by simp)
      | some r0 =>
        simp only [pushDirGo, hdec]
        constructor
        · intro hr
          exact absurd hr (by simp)
        · intro r hr
          have hrr : r0 = r := by injection hr
          subst hrr
          refine ⟨List.mem_cons_self _ _, ?_⟩
          exact pushDirGo_not_written force reason rest _ m hnd.1
    · rw [dirLookup, if_neg hm] at hlk
      cases hdec : pushDecision force reason g.mtime
          ((dirLookup dst m).map FData.mtime) with
      | none =>
        have hdst : dirLookup (dirSet dst m g) n = dirLookup dst n :=
          dirLookup_dirSet_ne dst _ (fun hh => hm hh.symm)
        have hih := ih (dirSet dst m g) n fd hnd.2 hlk
        rw [hdst] at hih
        simp only [pushDirGo, hdec]
        constructor
        · intro hnone
          have := hih.1 hnone
          exact ⟨List.mem_cons_of_mem _ this.1, this.2⟩
        · intro r hr
          have := hih.2 r hr
          exact ⟨this.1, this.2⟩
      | some r0 =>
        have hih := ih dst n fd hnd.2 hlk
        simp only [pushDirGo, hdec]
        constructor
        · intro hnone
          exact (hih.1 hnone)
        · intro r hr
          have := hih.2 r hr
          exact ⟨List.mem_cons_of_mem _ this.1, this.2⟩


/-- Claim C2: for every file of the source listing, `sync_to_cloud` and
`sync_from_cloud` overwrite the destination only when it is absent or
strictly older than the source (recording the file as copied), skip with
reason `"cloud is newer"` or `"local is newer"` when the destination is
strictly newer, skip with `"files are equal"` on equal mtimes, and with
`force` copy unconditionally. Stated against the spec-modelled primitives
(their bodies are absent from src/; only the tests call them). -/
theorem directionalSync_newer_wins (localD cloudD : Dir) (force : Bool) :
    (∀ n fd, (localD.map Prod.fst).Nodup → dirLookup localD n = some fd →
      ((force = true →
          n ∈ (syncToCloud localD cloudD force).1.copied
            ∧ dirLookup (syncToCloud localD cloudD force).2 n = some fd)
        ∧ (force = false → dirLookup cloudD n = none →
          n ∈ (syncToCloud localD cloudD force).1.copied
            ∧ dirLookup (syncToCloud localD cloudD force).2 n = some fd)
        ∧ (∀ g, force = false → dirLookup cloudD n = some g →
            g.mtime < fd.mtime →
          n ∈ (syncToCloud localD cloudD force).1.copied
            ∧ dirLookup (syncToCloud localD cloudD force).2 n = some fd)
        ∧ (∀ g, force = false → dirLookup cloudD n = some g →
            fd.mtime < g.mtime →
          (n, "cloud is newer") ∈ (syncToCloud localD cloudD force).1.skipped
            ∧ dirLookup (syncToCloud localD cloudD force).2 n = some g)
        ∧ (∀ g, force = false → dirLookup cloudD n = some g →
            fd.mtime = g.mtime →
          (n, "files are equal") ∈ (syncToCloud localD cloudD force).1.skipped
            ∧ dirLookup (syncToCloud localD cloudD force).2 n = some g)))
    ∧ (∀ n fd, (cloudD.map Prod.fst).Nodup → dirLookup cloudD n = some fd →
      ((force = true →
          n ∈ (syncFromCloud localD cloudD force).1.copied
            ∧ dirLookup (syncFromCloud localD cloudD force).2 n = some fd)
        ∧ (force = false → dirLookup localD n = none →
          n ∈ (syncFromCloud localD cloudD force).1.copied
            ∧ dirLookup (syncFromCloud localD cloudD force).2 n = some fd)
        ∧ (∀ g, force = false → dirLookup localD n = some g →
            g.mtime < fd.mtime →
          n ∈ (syncFromCloud localD cloudD force).1.copied
            ∧ dirLookup (syncFromCloud localD cloudD force).2 n = some fd)
        ∧ (∀ g, force = false → dirLookup localD n = some g →
            fd.mtime < g.mtime →
          (n, "local is newer") ∈ (syncFromCloud localD cloudD force).1.skipped
            ∧ dirLookup (syncFromCloud localD cloudD force).2 n = some g)
        ∧ (∀ g, force = false → dirLookup localD n = some g →
            fd.mtime = g.mtime →
          (n, "files are equal") ∈ (syncFromCloud localD cloudD force).1.skipped
            ∧ dirLookup (syncFromCloud localD cloudD force).2 n = some g))) := by
  constructor
  · intro n fd hnd hlk
    have hs := pushDirGo_spec force "cloud is newer" localD cloudD n fd hnd hlk
    refine ⟨?_, ?_, ?_, ?_, ?_⟩
    · intro hf
      subst hf
      exact hs.1 (by simp [pushDecision])
    · intro hf habs
      subst hf
      exact hs.1 (by simp [pushDecision, habs])
    · intro g hf hg hlt
      subst hf
      have := hs.1 (by simp [pushDecision, hg, hlt])
      exact this
    · intro g hf hg hlt
      subst hf
      have hdec : pushDecision false "cloud is newer" fd.mtime
          ((dirLookup cloudD n).map FData.mtime) = some "cloud is newer" := by
        simp [pushDecision, hg, hlt, not_lt_of_gt hlt]
      have := hs.2 _ hdec
      rw [hg] at this
      exact this
    · intro g hf hg heq
      subst hf
      have hdec : pushDecision false "cloud is newer" fd.mtime
          ((dirLookup cloudD n).map FData.mtime) = some "files are equal" := by
        simp [pushDecision, hg, heq]
      have := hs.2 _ hdec
      rw [hg] at this
      exact this
  · intro n fd hnd hlk
    have hs := pushDirGo_spec force "local is newer" cloudD localD n fd hnd hlk
    refine ⟨?_, ?_, ?_, ?_, ?_⟩
    · intro hf
      subst hf
      exact hs.1 (by simp [pushDecision])
    · intro hf habs
      subst hf
      exact hs.1 (by simp [pushDecision, habs])
    · intro g hf hg hlt
      subst hf
      exact hs.1 (by simp [pushDecision, hg, hlt])
    · intro g hf hg hlt
      subst hf
      have hdec : pushDecision false "local is newer" fd.mtime
          ((dirLookup localD n).map FData.mtime) = some "local is newer" := by
        simp [pushDecision, hg, hlt, not_lt_of_gt hlt]
      have := hs.2 _ hdec
      rw [hg] at this
      exact this
    · intro g hf hg heq
      subst hf
      have hdec : pushDecision false "local is newer" fd.mtime
          ((dirLookup localD n).map FData.mtime) = some "files are equal" := by
        simp [pushDecision, hg, heq]
      have := hs.2 _ hdec
      rw [hg] at this
      exact this

/-- Witness for claim C2: a cloud file strictly newer than the local copy
is not overwritten by a plain `sync_to_cloud`; it is recorded as skipped
with reason `"cloud is newer"` and keeps its data. -/
theorem directionalSync_newer_wins_witness :
    ("save.dat", "cloud is newer")
        ∈ (syncToCloud [("save.dat", ⟨10, 1⟩)] [("save.dat", ⟨20, 2⟩)]
            false).1.skipped
      ∧ dirLookup (syncToCloud [("save.dat", ⟨10, 1⟩)] [("save.dat", ⟨20, 2⟩)]
            false).2 "save.dat" = some ⟨20, 2⟩ :=
  ((directionalSync_newer_wins [("save.dat", ⟨10, 1⟩)] [("save.dat", ⟨20, 2⟩)]
      false).1 "save.dat" ⟨10, 1⟩ (by decide) (by decide)).2.2.2.1 ⟨20, 2⟩ rfl
    (by decide) (by decide)


/-- Conflicting pair used to instantiate the resolver theorems. -/
def resolverFs : RFs :=
  [(["local", "save.dat"], ⟨10, 1⟩), (["cloud", "save.dat"], ⟨20, 2⟩)]

/-- Witness for claim C5: on `resolverFs` with `KEEP_LOCAL`, the trace is
the backup-directory creation, the two conflict backups, then the strategy
operations. -/
theorem resolveConflict_backup_order_witness :
    resolveConflictOps resolverFs ["local", "save.dat"] ["cloud", "save.dat"]
        .keepLocal ["backups"] "20240101-000000"
      = .mkdirp ["backups"]
        :: .copyBytes ["local", "save.dat"]
            (conflictBackupPath ["backups"] ["local", "save.dat"]
              "20240101-000000" "local")
        :: .copyBytes ["cloud", "save.dat"]
            (conflictBackupPath ["backups"] ["local", "save.dat"]
              "20240101-000000" "cloud")
        :: strategyOps ["local", "save.dat"] ["cloud", "save.dat"]
            "20240101-000000" .keepLocal :=
  (resolveConflict_backup_order resolverFs ["local", "save.dat"]
    ["cloud", "save.dat"] ["backups"] .keepLocal "20240101-000000"
    (fun _ => false) 30 ⟨10, 1⟩ ⟨20, 2⟩ (by decide) (by decide) (by decide)
    (by decide)).1

/-- Witness for claim C6: on `resolverFs` with `KEEP_BOTH`, the local
canonical path is unoccupied afterwards. -/
theorem resolveConflict_keepBoth_witness :
    fsLookup ((execOps (fun _ => false) 30 resolverFs
        (resolveConflictOps resolverFs ["local", "save.dat"]
          ["cloud", "save.dat"] .keepBoth ["backups"] "T")).1)
      ["local", "save.dat"] = none :=
  (resolveConflict_keepBoth resolverFs ["local", "save.dat"]
    ["cloud", "save.dat"] ["backups"] "T" 30 ⟨10, 1⟩ ⟨20, 2⟩
    (by decide) (by decide) (by decide) (by decide) (by decide) (by decide)
    (by decide) (by decide) (by decide) (by decide) (by decide) (by decide)
    (by decide) (by decide) (by decide) (by decide) (by decide) (by decide)
    (by decide) (by decide) (by decide) (by decide)).2.1

end GS
